import Mathlib

/-!
Shallow embedding of the advanced filter/query construction engine of
`app/components/assets/assets-index/advanced-filters/helpers.ts`:
the field type resolver (`getUIFieldType`), the filter parameter parser
(`useInitialFilters`), the default value generator
(`getDefaultValueForFieldType`) and the column availability resolver
(`getAvailableColumns`), together with proofs about them.

JavaScript strings are embedded as Lean `String`.  The two string
primitives the source uses — `String.prototype.split` with a single
character separator and `String.prototype.startsWith` — are embedded as
structurally recursive Lean functions (`jsSplit`, `jsStartsWith`) so that
every definition evaluates inside the kernel.  A JavaScript runtime
exception (`TypeError`) is embedded as `Except.error ()`.
-/

namespace Shelf

instance {ε α : Type} [DecidableEq ε] [DecidableEq α] :
    DecidableEq (Except ε α) := fun a b =>
  match a, b with
  | .ok x, .ok y => decidable_of_iff (x = y) (by simp)
  | .error x, .error y => decidable_of_iff (x = y) (by simp)
  | .ok _, .error _ => isFalse (by simp)
  | .error _, .ok _ => isFalse (by simp)

/-- JavaScript `s.split(c)` for a one-character separator `c`, as structural
recursion over the character list: accumulator `acc` holds the current
segment reversed.  `"a:b".split(":") = ["a","b"]`, `"x".split(":") = ["x"]`,
`"".split(":") = [""]`, `"a:".split(":") = ["a",""]`. -/
def splitCharAux (c : Char) : List Char → List Char → List String
  | [], acc => [String.mk acc.reverse]
  | x :: xs, acc =>
    if x = c then String.mk acc.reverse :: splitCharAux c xs []
    else splitCharAux c xs (x :: acc)

/-- JavaScript `s.split(c)` (split on every occurrence of the character). -/
def jsSplit (s : String) (c : Char) : List String :=
  splitCharAux c s.data []

/-- JavaScript `s.startsWith(p)`. -/
def jsStartsWith (s p : String) : Bool :=
  p.data.isPrefixOf s.data

/-- Column descriptor (`Column` of `~/modules/asset-index-settings/helpers`,
as used by the engine): a stable `name`, a `visible` flag, and — for
custom-field backed columns — the custom field's primitive kind `cfType`
(`"TEXT" | "MULTILINE_TEXT" | "BOOLEAN" | "DATE" | "OPTION" | ...`),
absent (`none`) on built-in columns. -/
structure Column where
  name : String
  visible : Bool
  cfType : Option String
deriving DecidableEq, Repr

/-- The `UIFieldType` union of helpers.ts. -/
inductive UIFieldType where
  | string
  | text
  | boolean
  | date
  | number
  | enum
  | array
deriving DecidableEq, Repr

/-- The TypeScript `UIFieldType` values are themselves strings; this is the
identity embedding of a `UIFieldType` constructor back into its string. -/
def UIFieldType.toWire : UIFieldType → String
  | .string => "string"
  | .text => "text"
  | .boolean => "boolean"
  | .date => "date"
  | .number => "number"
  | .enum => "enum"
  | .array => "array"

/-- Embedding of `uiFieldTypeNames` of helpers.ts: friendly names for UI display. -/
def uiFieldTypeNames : UIFieldType → String
  | .string => "Single-line text"
  | .text => "Multi-line text"
  | .boolean => "Yes/No"
  | .date => "Date"
  | .number => "Number"
  | .enum => "Option"
  | .array => "List"

/-- The local `fieldType` computation of `getUIFieldType` in helpers.ts:
the `switch` on `column.name` (and, in its `default` branch, on
`column.cfType` for `cf_`-prefixed names) embedded as the corresponding
decision chain. -/
def resolveFieldType (column : Column) : UIFieldType :=
  if column.name = "id" ∨ column.name = "name" then .string
  else if column.name = "custody" ∨ column.name = "status" ∨
      column.name = "category" ∨ column.name = "location" ∨
      column.name = "kit" then .enum
  else if column.name = "description" then .text
  else if column.name = "valuation" then .number
  else if column.name = "availableToBook" then .boolean
  else if column.name = "createdAt" then .date
  else if column.name = "tags" then .array
  else if jsStartsWith column.name "cf_" then
    if column.cfType = some "TEXT" then .string
    else if column.cfType = some "MULTILINE_TEXT" then .text
    else if column.cfType = some "BOOLEAN" then .boolean
    else if column.cfType = some "DATE" then .date
    else if column.cfType = some "OPTION" then .enum
    else .string
  else .string

/-- Embedding of `getUIFieldType` of helpers.ts: the field type resolver, returning the
computed `fieldType` either as the `UIFieldType` string itself or as its
friendly display name. -/
def getUIFieldType (column : Column) (friendlyName : Bool) : String :=
  let fieldType : UIFieldType := resolveFieldType column
  if friendlyName then uiFieldTypeNames fieldType else fieldType.toWire

/-- The `value` field of a `Filter`: a plain string, a list of strings (for
the range operator), or JavaScript `undefined` (pushed when the raw value
has no colon and the operator is not `"between"`). -/
inductive FilterValue where
  | str (s : String)
  | list (l : List String)
  | undef
deriving DecidableEq, Repr

/-- Filter descriptor (`Filter` of `./schema`, as produced by the parser):
`operator` and `type` are the strings the source casts into
`FilterOperator` / `FilterFieldType`.  Fields in order:
`name`, `operator`, `value`, `type`. -/
structure Filter where
  name : String
  operator : String
  value : FilterValue
  type : String
deriving DecidableEq, Repr

/-- Embedding of `useInitialFilters` of helpers.ts.  The `searchParams` of the hook are
passed explicitly as the ordered list of `(key, value)` pairs; the
`forEach` loop becomes recursion over that list.  `value.split(":")`
splits on EVERY colon; `const [operator, filterValue] = …` takes the
first two pieces, `filterValue` being `undefined` (`none`) when there is
no colon.  When `operator === "between"`, the source calls
`filterValue.split(",")`, which throws a `TypeError` when `filterValue`
is `undefined`: that exception is the `Except.error ()` outcome and
aborts the whole traversal, as a thrown exception aborts `forEach`. -/
def useInitialFilters (columns : List Column) :
    List (String × String) → Except Unit (List Filter)
  | [] => Except.ok []
  | (key, value) :: rest =>
    match columns.find? (fun c => c.name = key) with
    | none => useInitialFilters columns rest
    | some column =>
      let parts := jsSplit value ':'
      let operator := parts.headD ""
      let filterValue : Option String := parts[1]?
      let pushed : Except Unit FilterValue :=
        if operator = "between" then
          match filterValue with
          | none => Except.error ()
          | some fv => Except.ok (FilterValue.list (jsSplit fv ','))
        else
          Except.ok (match filterValue with
            | some fv => FilterValue.str fv
            | none => FilterValue.undef)
      match pushed with
      | Except.error e => Except.error e
      | Except.ok fv =>
        match useInitialFilters columns rest with
        | Except.error e => Except.error e
        | Except.ok fs =>
          Except.ok (⟨key, operator, fv, getUIFieldType column false⟩ :: fs)

/-- Custom field definition (the fields of Prisma's `CustomField` the
engine reads): `name` (without the `cf_` prefix) and the ordered option
list. -/
structure CustomField where
  name : String
  options : List String
deriving DecidableEq, Repr

/-- The `any` value returned by `getDefaultValueForFieldType`: a string, a
boolean or a number. -/
inductive DefaultValue where
  | str (s : String)
  | bool (b : Bool)
  | num (n : Nat)
deriving DecidableEq, Repr

/-- Embedding of `getDefaultValueForFieldType` of helpers.ts.  `today` stands for the
impure `new Date().toISOString().split("T")[0]` (the current calendar
date); the function is otherwise a pure function of its arguments.
`customFields` is `Option`-al to embed the `CustomField[] | null`
argument, and `customField?.options?.[0] || ""` becomes
`(… .bind List.head?).getD ""` (a `""` first option is mapped to `""`
by `|| ""` just as `getD` does). -/
def getDefaultValueForFieldType (today : String) (column : Column)
    (customFields : Option (List CustomField)) : DefaultValue :=
  if jsStartsWith column.name "cf_" then
    let customField : Option CustomField :=
      customFields.bind (fun cfs =>
        cfs.find? (fun cf => "cf_" ++ cf.name = column.name))
    if column.cfType = some "DATE" then .str today
    else if column.cfType = some "BOOLEAN" then .bool true
    else if column.cfType = some "OPTION" then
      .str (((customField.map CustomField.options).bind List.head?).getD "")
    else if column.cfType = some "TEXT" ∨
        column.cfType = some "MULTILINE_TEXT" then .str ""
    else .str ""
  else
    let t := getUIFieldType column false
    if t = "boolean" then .bool true
    else if t = "date" then .str today
    else if t = "number" then .num 0
    else .str ""

/-- Sort descriptor (`Sort` of `../advanced-asset-index-filters-and-sorting`;
modelled from the spec: `{ name, direction }`). -/
structure SortDesc where
  name : String
  direction : String
deriving DecidableEq, Repr

/-- An element of the `Array<Filter | Sort>` of used columns. -/
inductive UsedColumn where
  | filterU (f : Filter)
  | sortU (s : SortDesc)
deriving DecidableEq, Repr

/-- The `name` of a used column (`f.name` on the `Filter | Sort` union). -/
def UsedColumn.name : UsedColumn → String
  | .filterU f => f.name
  | .sortU s => s.name

/-- The `operation` argument: `"filter" | "sort"`. -/
inductive Operation where
  | filter
  | sort
deriving DecidableEq, Repr

/-- Embedding of `getAvailableColumns` of helpers.ts: visible, unused columns, minus the
operation-specific exclusions (`["tags"]` and `MULTILINE_TEXT` custom
fields for `sort`, the empty deny-list for `filter`).
`column.cfType || ""` becomes `column.cfType.getD ""`. -/
def getAvailableColumns (columns : List Column)
    (usedColumns : List UsedColumn) (operation : Operation) : List Column :=
  let availableColumns := columns.filter (fun column =>
    column.visible &&
      (usedColumns.find? (fun f => f.name = column.name)).isNone)
  availableColumns.filter (fun column =>
    if !column.visible then false
    else
      match operation with
      | .sort =>
        let unsortableColumns := ["tags"]
        if unsortableColumns.contains column.name then false
        else if jsStartsWith column.name "cf_" then
          let unsortableTypes := ["MULTILINE_TEXT"]
          !unsortableTypes.contains (column.cfType.getD "")
        else true
      | .filter =>
        let unfilterableColumns : List String := []
        if unfilterableColumns.contains column.name then false
        else true)

/-- Encoder for the wire form `key=operator:value`.  Modelled from the
spec: the encoder itself is not part of the sampled source (only the
parser is); per the spec the wire format is `key=operator:value`, the
value comma-joined when the operator is the range operator. -/
def encodeFilter (f : Filter) : String × String :=
  (f.name,
    f.operator ++ ":" ++
      (match f.value with
        | .str s => s
        | .list l => String.intercalate "," l
        | .undef => ""))

-- Concrete catalog entries used in witnesses and counterexamples.

/-- A built-in `status` column. -/
def statusColumn : Column := ⟨"status", true, none⟩

/-- A built-in `name` column. -/
def nameColumn : Column := ⟨"name", true, none⟩

/-- A built-in `valuation` column. -/
def valuationColumn : Column := ⟨"valuation", true, none⟩

-- Sanity examples (kernel evaluation of the embedding).

example : jsSplit "is:a:b" ':' = ["is", "a", "b"] := by decide
example : jsSplit "between" ':' = ["between"] := by decide
example : jsStartsWith "cf_x" "cf_" = true := by decide
example : jsStartsWith "status" "cf_" = false := by decide
example : getUIFieldType statusColumn false = "enum" := by decide
example : getUIFieldType ⟨"cf_x", true, some "OPTION"⟩ false = "enum" := by
  decide
example :
    useInitialFilters [statusColumn] [("status", "is:AVAILABLE")] =
      Except.ok [⟨"status", "is", FilterValue.str "AVAILABLE", "enum"⟩] := by
  decide
example :
    useInitialFilters [statusColumn] [("status", "between")] =
      Except.error () := by decide

/-- C1: FALSE as stated.  Counterexample: against a catalog containing the
`status` column, the single parameter `status=between` (range operator
token, no colon delimiter) makes the parser throw: `value.split(":")`
yields one piece, `filterValue` is `undefined`, and
`filterValue.split(",")` raises a `TypeError` (`Except.error ()`), so no
descriptor list is returned. -/
theorem useInitialFilters_throws_on_bare_between :
    useInitialFilters [statusColumn] [("status", "between")] =
      Except.error () ∧
    ∀ fs : List Filter,
      useInitialFilters [statusColumn] [("status", "between")] ≠
        Except.ok fs := by
  refine ⟨by decide, fun fs h => ?_⟩
  rw [show useInitialFilters [statusColumn] [("status", "between")] =
      Except.error () from by decide] at h
  exact Except.noConfusion h

/-- C1 (amended): the parse completes without failing provided every
parameter that matches a catalog column and whose operator token (the
piece before the first colon) is `"between"` actually has a colon in its
raw value (so that a value component exists); in particular no other
malformed input makes it fail. -/
theorem useInitialFilters_ok_of_wellformed (columns : List Column) :
    ∀ params : List (String × String),
      (∀ p ∈ params,
        (columns.find? (fun c => c.name = p.1)).isSome = true →
        (jsSplit p.2 ':').headD "" = "between" →
        ((jsSplit p.2 ':')[1]?).isSome = true) →
      ∃ fs, useInitialFilters columns params = Except.ok fs
  | [], _ => ⟨[], rfl⟩
  | (key, value) :: rest, h => by
    obtain ⟨fs, hfs⟩ := useInitialFilters_ok_of_wellformed columns rest
      (fun p hp => h p (List.mem_cons_of_mem _ hp))
    cases hfind : columns.find? (fun c => c.name = key) with
    | none =>
      exact ⟨fs, by rw [useInitialFilters, hfind]; exact hfs⟩
    | some column =>
      by_cases hop : (jsSplit value ':').headD "" = "between"
      · have hsome : ((jsSplit value ':')[1]?).isSome = true :=
          h (key, value) (List.mem_cons_self _ _)
            (by rw [hfind]; rfl) hop
        obtain ⟨fv, hfv⟩ := Option.isSome_iff_exists.mp hsome
        refine ⟨⟨key, (jsSplit value ':').headD "",
          FilterValue.list (jsSplit fv ','),
          getUIFieldType column false⟩ :: fs, ?_⟩
        rw [useInitialFilters, hfind]
        simp only [hfv, if_pos hop, hfs]
      · cases hfv : (jsSplit value ':')[1]? with
        | none =>
          refine ⟨⟨key, (jsSplit value ':').headD "", FilterValue.undef,
            getUIFieldType column false⟩ :: fs, ?_⟩
          rw [useInitialFilters, hfind]
          simp only [hfv, if_neg hop, hfs]
        | some fv =>
          refine ⟨⟨key, (jsSplit value ':').headD "", FilterValue.str fv,
            getUIFieldType column false⟩ :: fs, ?_⟩
          rw [useInitialFilters, hfind]
          simp only [hfv, if_neg hop, hfs]

/-- Witness for `useInitialFilters_ok_of_wellformed`. -/
theorem useInitialFilters_ok_of_wellformed_witness :
    ∃ fs, useInitialFilters [statusColumn] [("status", "is:AVAILABLE")] =
      Except.ok fs :=
  useInitialFilters_ok_of_wellformed [statusColumn]
    [("status", "is:AVAILABLE")] (by decide)

/-- C2: FALSE as stated.  Counterexample: against a catalog containing the
`name` column, the parameter `name=is:a:b` parses to a descriptor whose
value is `"a"` — the piece between the first and the second colon — not
the entire remainder `"a:b"` after the first colon, because
`value.split(":")` splits on every colon and only the second piece is
kept. -/
theorem useInitialFilters_drops_after_second_colon :
    useInitialFilters [nameColumn] [("name", "is:a:b")] =
      Except.ok [⟨"name", "is", FilterValue.str "a", "string"⟩] ∧
    FilterValue.str "a" ≠ FilterValue.str "a:b" := by
  constructor
  · decide
  · decide

/-- C2 (amended): for a parameter whose key matches a catalog column and
whose raw value contains at least one colon, the emitted descriptor's
operator is the piece before the first colon and, for a non-range
operator, its value is the SECOND piece of the full colon split — the
substring strictly between the first colon and the next colon (or the end
of the string) — anything after a second colon being dropped. -/
theorem useInitialFilters_value_is_second_piece
    (columns : List Column) (key raw : String) (col : Column) (v : String)
    (hfind : columns.find? (fun c => c.name = key) = some col)
    (hv : (jsSplit raw ':')[1]? = some v)
    (hop : (jsSplit raw ':').headD "" ≠ "between") :
    useInitialFilters columns [(key, raw)] =
      Except.ok [⟨key, (jsSplit raw ':').headD "", FilterValue.str v,
        getUIFieldType col false⟩] := by
  rw [useInitialFilters, hfind]
  simp only [hv, if_neg hop]
  rw [useInitialFilters]

/-- Witness for `useInitialFilters_value_is_second_piece`. -/
theorem useInitialFilters_value_is_second_piece_witness :
    useInitialFilters [nameColumn] [("name", "is:a:b")] =
      Except.ok [⟨"name", "is", FilterValue.str "a",
        getUIFieldType nameColumn false⟩] :=
  useInitialFilters_value_is_second_piece [nameColumn] "name" "is:a:b"
    nameColumn "a" (by decide) (by decide) (by decide)

/-- C3: encoding `{name:"valuation", operator:"between",
value:["10","50"]}` gives the wire pair `valuation=between:10,50`, and
parsing it back against a catalog containing the `valuation` column
yields the same descriptor (same name, operator and two-element value in
the same order). -/
theorem encode_parse_roundtrip_valuation :
    encodeFilter ⟨"valuation", "between", FilterValue.list ["10", "50"],
        "number"⟩ =
      ("valuation", "between:10,50") ∧
    useInitialFilters [valuationColumn]
        [encodeFilter ⟨"valuation", "between",
          FilterValue.list ["10", "50"], "number"⟩] =
      Except.ok [⟨"valuation", "between", FilterValue.list ["10", "50"],
        "number"⟩] := by
  constructor
  · decide
  · decide

/-- C4: when every parameter key matches a catalog column and the parse
succeeds, the emitted descriptor list is in exactly the iteration order of
the input parameters: the list of descriptor names equals the list of
parameter keys. -/
theorem useInitialFilters_preserves_order (columns : List Column) :
    ∀ (params : List (String × String)) (fs : List Filter),
      (∀ p ∈ params,
        (columns.find? (fun c => c.name = p.1)).isSome = true) →
      useInitialFilters columns params = Except.ok fs →
      fs.map Filter.name = params.map Prod.fst
  | [], fs, _, heq => by
    rw [useInitialFilters] at heq
    cases heq
    rfl
  | (key, value) :: rest, fs, h, heq => by
    obtain ⟨column, hfind⟩ := Option.isSome_iff_exists.mp
      (h (key, value) (List.mem_cons_self _ _))
    rw [useInitialFilters, hfind] at heq
    dsimp only at heq
    rcases hpush : (if (jsSplit value ':').headD "" = "between" then
        match (jsSplit value ':')[1]? with
        | none => Except.error ()
        | some fv => Except.ok (FilterValue.list (jsSplit fv ','))
      else
        Except.ok (match (jsSplit value ':')[1]? with
          | some fv => FilterValue.str fv
          | none => FilterValue.undef)) with e | fv
    · rw [hpush] at heq
      exact Except.noConfusion heq
    · rw [hpush] at heq
      rcases hrest : useInitialFilters columns rest with e | fs'
      · rw [hrest] at heq
        exact Except.noConfusion heq
      · rw [hrest] at heq
        have hfs : fs = ⟨key, (jsSplit value ':').headD "", fv,
            getUIFieldType column false⟩ :: fs' :=
          (Except.ok.inj heq).symm
        rw [hfs]
        simp only [List.map_cons]
        exact congrArg (key :: ·) (useInitialFilters_preserves_order
          columns rest fs'
          (fun p hp => h p (List.mem_cons_of_mem _ hp)) hrest)

/-- Witness for `useInitialFilters_preserves_order`: parameters
`[b=…, a=…]` against a catalog listing `a` before `b` yield the
descriptors in parameter order `[b, a]`, not catalog or alphabetical
order. -/
theorem useInitialFilters_preserves_order_witness :
    (useInitialFilters
        [⟨"availableToBook", true, none⟩, ⟨"status", true, none⟩]
        [("status", "is:AVAILABLE"), ("availableToBook", "is:true")] =
      Except.ok
        [⟨"status", "is", FilterValue.str "AVAILABLE", "enum"⟩,
          ⟨"availableToBook", "is", FilterValue.str "true", "boolean"⟩]) ∧
    [FilterValue.str "AVAILABLE"].length = 1 ∧
    ([⟨"status", "is", FilterValue.str "AVAILABLE", "enum"⟩,
        (⟨"availableToBook", "is", FilterValue.str "true", "boolean"⟩ :
          Filter)].map Filter.name =
      [("status", "is:AVAILABLE"), ("availableToBook", "is:true")].map
        Prod.fst) :=
  ⟨by decide, rfl,
    useInitialFilters_preserves_order
      [⟨"availableToBook", true, none⟩, ⟨"status", true, none⟩]
      [("status", "is:AVAILABLE"), ("availableToBook", "is:true")]
      _ (by decide) (by decide)⟩

/-- C5: a parameter whose key matches no catalog column is silently
skipped (it contributes nothing and the rest of the parse is unchanged);
concretely, parsing `{unrelatedKey: "x", status: "is:AVAILABLE"}` against
a catalog containing the `status` column yields exactly one descriptor,
with name `status`, operator `is` and value `AVAILABLE`. -/
theorem useInitialFilters_skips_unmatched :
    (∀ (columns : List Column) (key v : String)
        (rest : List (String × String)),
      columns.find? (fun c => c.name = key) = none →
      useInitialFilters columns ((key, v) :: rest) =
        useInitialFilters columns rest) ∧
    useInitialFilters [statusColumn]
        [("unrelatedKey", "x"), ("status", "is:AVAILABLE")] =
      Except.ok [⟨"status", "is", FilterValue.str "AVAILABLE", "enum"⟩] := by
  constructor
  · intro columns key v rest hfind
    rw [useInitialFilters, hfind]
  · decide

/-- Witness for `useInitialFilters_skips_unmatched`. -/
theorem useInitialFilters_skips_unmatched_witness :
    useInitialFilters [statusColumn] [("unrelatedKey", "x")] =
      useInitialFilters [statusColumn] [] :=
  useInitialFilters_skips_unmatched.1 [statusColumn] "unrelatedKey" "x" []
    (by decide)

/-- Two strings cannot be equal when one has the `cf_` prefix and the
other does not. -/
theorem name_ne_of_cf {s t : String} (h : jsStartsWith s "cf_" = true)
    (ht : jsStartsWith t "cf_" = false) : s ≠ t := by
  intro he
  rw [he] at h
  rw [h] at ht
  cases ht

/-- On a `cf_`-prefixed column name the resolver falls through the
built-in cases and decides by `cfType`. -/
theorem resolveFieldType_cf (c : Column)
    (hcf : jsStartsWith c.name "cf_" = true) :
    resolveFieldType c =
      (if c.cfType = some "TEXT" then UIFieldType.string
      else if c.cfType = some "MULTILINE_TEXT" then UIFieldType.text
      else if c.cfType = some "BOOLEAN" then UIFieldType.boolean
      else if c.cfType = some "DATE" then UIFieldType.date
      else if c.cfType = some "OPTION" then UIFieldType.enum
      else UIFieldType.string) := by
  have h1 : ¬(c.name = "id" ∨ c.name = "name") := by
    rintro (he | he) <;> exact name_ne_of_cf hcf (by decide) he
  have h2 : ¬(c.name = "custody" ∨ c.name = "status" ∨
      c.name = "category" ∨ c.name = "location" ∨ c.name = "kit") := by
    rintro (he | he | he | he | he) <;>
      exact name_ne_of_cf hcf (by decide) he
  have h3 : c.name ≠ "description" := name_ne_of_cf hcf (by decide)
  have h4 : c.name ≠ "valuation" := name_ne_of_cf hcf (by decide)
  have h5 : c.name ≠ "availableToBook" := name_ne_of_cf hcf (by decide)
  have h6 : c.name ≠ "createdAt" := name_ne_of_cf hcf (by decide)
  have h7 : c.name ≠ "tags" := name_ne_of_cf hcf (by decide)
  rw [resolveFieldType, if_neg h1, if_neg h2, if_neg h3, if_neg h4,
    if_neg h5, if_neg h6, if_neg h7, if_pos hcf]

/-- Only the `tags` branch of the resolver produces the list-of-values
field type. -/
theorem resolveFieldType_array (c : Column)
    (h : resolveFieldType c = UIFieldType.array) : c.name = "tags" := by
  rw [resolveFieldType] at h
  by_cases h1 : (c.name = "id" ∨ c.name = "name")
  · rw [if_pos h1] at h; exact absurd h (by decide)
  rw [if_neg h1] at h
  by_cases h2 : (c.name = "custody" ∨ c.name = "status" ∨
      c.name = "category" ∨ c.name = "location" ∨ c.name = "kit")
  · rw [if_pos h2] at h; exact absurd h (by decide)
  rw [if_neg h2] at h
  by_cases h3 : c.name = "description"
  · rw [if_pos h3] at h; exact absurd h (by decide)
  rw [if_neg h3] at h
  by_cases h4 : c.name = "valuation"
  · rw [if_pos h4] at h; exact absurd h (by decide)
  rw [if_neg h4] at h
  by_cases h5 : c.name = "availableToBook"
  · rw [if_pos h5] at h; exact absurd h (by decide)
  rw [if_neg h5] at h
  by_cases h6 : c.name = "createdAt"
  · rw [if_pos h6] at h; exact absurd h (by decide)
  rw [if_neg h6] at h
  by_cases h7 : c.name = "tags"
  · exact h7
  rw [if_neg h7] at h
  by_cases h8 : jsStartsWith c.name "cf_" = true
  · rw [if_pos h8] at h
    by_cases i1 : c.cfType = some "TEXT"
    · rw [if_pos i1] at h; exact absurd h (by decide)
    rw [if_neg i1] at h
    by_cases i2 : c.cfType = some "MULTILINE_TEXT"
    · rw [if_pos i2] at h; exact absurd h (by decide)
    rw [if_neg i2] at h
    by_cases i3 : c.cfType = some "BOOLEAN"
    · rw [if_pos i3] at h; exact absurd h (by decide)
    rw [if_neg i3] at h
    by_cases i4 : c.cfType = some "DATE"
    · rw [if_pos i4] at h; exact absurd h (by decide)
    rw [if_neg i4] at h
    by_cases i5 : c.cfType = some "OPTION"
    · rw [if_pos i5] at h; exact absurd h (by decide)
    rw [if_neg i5] at h
    exact absurd h (by decide)
  · rw [if_neg h8] at h
    exact absurd h (by decide)

/-- Any column not named `tags` resolves to a UI field type other than
`"array"`. -/
theorem getUIFieldType_ne_array (c : Column) (h : c.name ≠ "tags") :
    getUIFieldType c false ≠ "array" := by
  intro harr
  unfold getUIFieldType at harr
  dsimp only at harr
  have : resolveFieldType c = UIFieldType.array := by
    cases hF : resolveFieldType c <;> rw [hF] at harr <;>
      first | rfl | exact absurd harr (by decide)
  exact h (resolveFieldType_array c this)

/-- C6: for every catalog, every used-column set and both operations,
every column returned by `getAvailableColumns` is visible and its name
does not occur among the used columns' names. -/
theorem getAvailableColumns_visible_and_unused
    (columns : List Column) (used : List UsedColumn) (op : Operation)
    (c : Column) (hc : c ∈ getAvailableColumns columns used op) :
    c.visible = true ∧ ∀ u ∈ used, u.name ≠ c.name := by
  unfold getAvailableColumns at hc
  have h1 := (List.mem_filter.mp (List.mem_filter.mp hc).1).2
  rw [Bool.and_eq_true] at h1
  refine ⟨h1.1, fun u hu => ?_⟩
  have hnone : used.find? (fun f => f.name = c.name) = none :=
    Option.isNone_iff_eq_none.mp h1.2
  have := List.find?_eq_none.mp hnone u hu
  simpa using this

/-- Witness for `getAvailableColumns_visible_and_unused`. -/
theorem getAvailableColumns_visible_and_unused_witness :
    statusColumn.visible = true ∧
    ∀ u ∈ [UsedColumn.filterU
        (Filter.mk "name" "is" (FilterValue.str "x") "string")],
      u.name ≠ statusColumn.name :=
  getAvailableColumns_visible_and_unused
    [nameColumn, statusColumn]
    [UsedColumn.filterU
      (Filter.mk "name" "is" (FilterValue.str "x") "string")]
    Operation.filter statusColumn (by decide)

/-- C7: for every catalog and used-column set, a column returned by
`getAvailableColumns` for the `sort` operation never resolves to the
list-of-values UI type (`"array"`, i.e. the `tags` column), and is never
a custom-field column of primitive kind `MULTILINE_TEXT`. -/
theorem getAvailableColumns_sort_exclusions
    (columns : List Column) (used : List UsedColumn) (c : Column)
    (hc : c ∈ getAvailableColumns columns used Operation.sort) :
    getUIFieldType c false ≠ "array" ∧
    ¬(jsStartsWith c.name "cf_" = true ∧
        c.cfType = some "MULTILINE_TEXT") := by
  unfold getAvailableColumns at hc
  have h2 := (List.mem_filter.mp hc).2
  dsimp only at h2
  constructor
  · apply getUIFieldType_ne_array
    intro hn
    rw [hn] at h2
    simp at h2
  · rintro ⟨hcf, hty⟩
    rw [hcf] at h2
    rw [hty] at h2
    simp at h2

/-- Witness for `getAvailableColumns_sort_exclusions`. -/
theorem getAvailableColumns_sort_exclusions_witness :
    getUIFieldType statusColumn false ≠ "array" ∧
    ¬(jsStartsWith statusColumn.name "cf_" = true ∧
        statusColumn.cfType = some "MULTILINE_TEXT") :=
  getAvailableColumns_sort_exclusions [statusColumn] [] statusColumn
    (by decide)

/-- Evaluation of the resolver on a custom-field column, as a string. -/
theorem getUIFieldType_cf_eval (col : Column)
    (hcf : jsStartsWith col.name "cf_" = true) :
    getUIFieldType col false =
      (if col.cfType = some "TEXT" then "string"
      else if col.cfType = some "MULTILINE_TEXT" then "text"
      else if col.cfType = some "BOOLEAN" then "boolean"
      else if col.cfType = some "DATE" then "date"
      else if col.cfType = some "OPTION" then "enum"
      else "string") := by
  show (if false then uiFieldTypeNames (resolveFieldType col)
    else (resolveFieldType col).toWire) = _
  rw [if_neg (by decide), resolveFieldType_cf col hcf]
  split_ifs <;> rfl

/-- C9: the resolver is total and returns the documented UI field type:
each built-in name in the fixed set maps to its documented type
(regardless of the column's other fields), and on a `cf_`-prefixed column
each recognized primitive kind maps to its documented type, any
unrecognized kind (or an absent kind) falling back to single-line text
(`"string"`). -/
theorem getUIFieldType_documented_mapping :
    ∀ (vis : Bool) (ct : Option String) (col : Column),
      getUIFieldType ⟨"id", vis, ct⟩ false = "string" ∧
      getUIFieldType ⟨"name", vis, ct⟩ false = "string" ∧
      getUIFieldType ⟨"custody", vis, ct⟩ false = "enum" ∧
      getUIFieldType ⟨"status", vis, ct⟩ false = "enum" ∧
      getUIFieldType ⟨"category", vis, ct⟩ false = "enum" ∧
      getUIFieldType ⟨"location", vis, ct⟩ false = "enum" ∧
      getUIFieldType ⟨"kit", vis, ct⟩ false = "enum" ∧
      getUIFieldType ⟨"description", vis, ct⟩ false = "text" ∧
      getUIFieldType ⟨"valuation", vis, ct⟩ false = "number" ∧
      getUIFieldType ⟨"availableToBook", vis, ct⟩ false = "boolean" ∧
      getUIFieldType ⟨"createdAt", vis, ct⟩ false = "date" ∧
      getUIFieldType ⟨"tags", vis, ct⟩ false = "array" ∧
      (jsStartsWith col.name "cf_" = true →
        (col.cfType = some "TEXT" →
          getUIFieldType col false = "string") ∧
        (col.cfType = some "MULTILINE_TEXT" →
          getUIFieldType col false = "text") ∧
        (col.cfType = some "BOOLEAN" →
          getUIFieldType col false = "boolean") ∧
        (col.cfType = some "DATE" →
          getUIFieldType col false = "date") ∧
        (col.cfType = some "OPTION" →
          getUIFieldType col false = "enum") ∧
        (∀ k, col.cfType = some k → k ≠ "TEXT" → k ≠ "MULTILINE_TEXT" →
          k ≠ "BOOLEAN" → k ≠ "DATE" → k ≠ "OPTION" →
          getUIFieldType col false = "string") ∧
        (col.cfType = none → getUIFieldType col false = "string")) := by
  intro vis ct col
  refine ⟨by simp [getUIFieldType, resolveFieldType, UIFieldType.toWire],
    by simp [getUIFieldType, resolveFieldType, UIFieldType.toWire],
    by simp [getUIFieldType, resolveFieldType, UIFieldType.toWire],
    by simp [getUIFieldType, resolveFieldType, UIFieldType.toWire],
    by simp [getUIFieldType, resolveFieldType, UIFieldType.toWire],
    by simp [getUIFieldType, resolveFieldType, UIFieldType.toWire],
    by simp [getUIFieldType, resolveFieldType, UIFieldType.toWire],
    by simp [getUIFieldType, resolveFieldType, UIFieldType.toWire],
    by simp [getUIFieldType, resolveFieldType, UIFieldType.toWire],
    by simp [getUIFieldType, resolveFieldType, UIFieldType.toWire],
    by simp [getUIFieldType, resolveFieldType, UIFieldType.toWire],
    by simp [getUIFieldType, resolveFieldType, UIFieldType.toWire],
    fun hcf => ?_⟩
  have he := getUIFieldType_cf_eval col hcf
  refine ⟨fun h => by rw [he, if_pos h],
    fun h => by rw [he, if_neg (by simp [h]), if_pos h],
    fun h => by rw [he, if_neg (by simp [h]), if_neg (by simp [h]),
      if_pos h],
    fun h => by rw [he, if_neg (by simp [h]), if_neg (by simp [h]),
      if_neg (by simp [h]), if_pos h],
    fun h => by rw [he, if_neg (by simp [h]), if_neg (by simp [h]),
      if_neg (by simp [h]), if_neg (by simp [h]), if_pos h],
    fun k h hk1 hk2 hk3 hk4 hk5 => by
      rw [he, if_neg (by simp [h]; exact hk1),
        if_neg (by simp [h]; exact hk2), if_neg (by simp [h]; exact hk3),
        if_neg (by simp [h]; exact hk4), if_neg (by simp [h]; exact hk5)],
    fun h => by rw [he, if_neg (by simp [h]), if_neg (by simp [h]),
      if_neg (by simp [h]), if_neg (by simp [h]), if_neg (by simp [h])]⟩

/-- Witness for `getUIFieldType_documented_mapping`: a custom-field column
of primitive kind `BOOLEAN` resolves to the boolean UI type. -/
theorem getUIFieldType_documented_mapping_witness :
    getUIFieldType ⟨"cf_z", true, some "BOOLEAN"⟩ false = "boolean" :=
  (((getUIFieldType_documented_mapping true none
        ⟨"cf_z", true, some "BOOLEAN"⟩
      ).2.2.2.2.2.2.2.2.2.2.2.2 (by decide)).2.2.1) rfl

/-- C8: the default value generator returns `true` for boolean-typed
columns (built-in or custom), the current calendar date string for
date-typed columns, `0` for the number-typed built-in column, the first
option (or `""` when the option list is empty) of the catalog entry an
option-kind custom field's name-based lookup finds anywhere in the
catalog, and `""` when that catalog entry is missing — a `null` catalog
behaving exactly like an empty one (the function is total, so no
exception is possible). -/
theorem getDefaultValueForFieldType_documented :
    ∀ (today : String) (col : Column) (cfs : Option (List CustomField)),
      (jsStartsWith col.name "cf_" = false →
        getUIFieldType col false = "boolean" →
        getDefaultValueForFieldType today col cfs =
          DefaultValue.bool true) ∧
      (jsStartsWith col.name "cf_" = true → col.cfType = some "BOOLEAN" →
        getDefaultValueForFieldType today col cfs =
          DefaultValue.bool true) ∧
      (jsStartsWith col.name "cf_" = false →
        getUIFieldType col false = "date" →
        getDefaultValueForFieldType today col cfs =
          DefaultValue.str today) ∧
      (jsStartsWith col.name "cf_" = true → col.cfType = some "DATE" →
        getDefaultValueForFieldType today col cfs =
          DefaultValue.str today) ∧
      (jsStartsWith col.name "cf_" = false →
        getUIFieldType col false = "number" →
        getDefaultValueForFieldType today col cfs = DefaultValue.num 0) ∧
      (∀ cf : CustomField,
        jsStartsWith col.name "cf_" = true → col.cfType = some "OPTION" →
        (cfs.getD []).find? (fun c => "cf_" ++ c.name = col.name) =
          some cf →
        getDefaultValueForFieldType today col cfs =
          DefaultValue.str (cf.options.head?.getD "")) ∧
      (jsStartsWith col.name "cf_" = true → col.cfType = some "OPTION" →
        (cfs.getD []).find? (fun cf => "cf_" ++ cf.name = col.name) =
          none →
        getDefaultValueForFieldType today col cfs = DefaultValue.str "") ∧
      getDefaultValueForFieldType today col none =
        getDefaultValueForFieldType today col (some []) := by
  intro today col cfs
  refine ⟨?_, ?_, ?_, ?_, ?_, ?_, ?_, ?_⟩
  · intro hncf ht
    simp [getDefaultValueForFieldType, hncf, ht]
  · intro hcf hty
    simp [getDefaultValueForFieldType, hcf, hty]
  · intro hncf ht
    simp [getDefaultValueForFieldType, hncf, ht]
  · intro hcf hty
    simp [getDefaultValueForFieldType, hcf, hty]
  · intro hncf ht
    simp [getDefaultValueForFieldType, hncf, ht]
  · intro cf hcf hty hfind
    cases cfs with
    | none => exact absurd hfind (by simp)
    | some l =>
      simp only [Option.getD] at hfind
      simp [getDefaultValueForFieldType, hcf, hty, hfind]
  · intro hcf hty hfind
    cases cfs with
    | none => simp [getDefaultValueForFieldType, hcf, hty]
    | some l =>
      simp only [Option.getD] at hfind
      simp [getDefaultValueForFieldType, hcf, hty, hfind]
  · by_cases hcf : jsStartsWith col.name "cf_" = true <;>
      simp [getDefaultValueForFieldType, hcf]

/-- Witness for `getDefaultValueForFieldType_documented`: an option-kind
custom field with options `["A", "B"]` defaults to `"A"`, with the
matching catalog entry found by name in second position. -/
theorem getDefaultValueForFieldType_documented_witness :
    getDefaultValueForFieldType "2026-10-12" ⟨"cf_color", true,
        some "OPTION"⟩ (some [⟨"other", []⟩, ⟨"color", ["A", "B"]⟩]) =
      DefaultValue.str "A" :=
  (getDefaultValueForFieldType_documented "2026-10-12"
      ⟨"cf_color", true, some "OPTION"⟩
      (some [⟨"other", []⟩, ⟨"color", ["A", "B"]⟩])).2.2.2.2.2.1
    ⟨"color", ["A", "B"]⟩ (by decide) rfl (by decide)

/-- C10: for a custom-field column whose primitive kind is not `OPTION`,
the default value is independent of the custom-field catalog: only the
`OPTION` branch consults the looked-up catalog entry; the kind driving
the default is the column's own `cfType`. -/
theorem getDefaultValueForFieldType_catalog_independent
    (today : String) (col : Column)
    (cfs1 cfs2 : Option (List CustomField))
    (hcf : jsStartsWith col.name "cf_" = true)
    (hopt : col.cfType ≠ some "OPTION") :
    getDefaultValueForFieldType today col cfs1 =
      getDefaultValueForFieldType today col cfs2 := by
  simp only [getDefaultValueForFieldType, hcf, if_true]
  split_ifs with d1 d2 d3 <;> rfl

/-- Witness for `getDefaultValueForFieldType_catalog_independent`. -/
theorem getDefaultValueForFieldType_catalog_independent_witness :
    getDefaultValueForFieldType "2026-10-12" ⟨"cf_note", true,
        some "TEXT"⟩ none =
      getDefaultValueForFieldType "2026-10-12" ⟨"cf_note", true,
        some "TEXT"⟩ (some [⟨"note", ["Z"]⟩]) :=
  getDefaultValueForFieldType_catalog_independent "2026-10-12"
    ⟨"cf_note", true, some "TEXT"⟩ none (some [⟨"note", ["Z"]⟩])
    (by decide) (by decide)

end Shelf
